import Mathlib

/-!
# RTP stream filter synthesis and tap interface (ui/qt/utils/qt_ui_utils.cpp, ui/rtp_stream.h)

A shallow embedding of

* `address_to_qstring`, `make_filter_based_on_rtpstream_id` and
  `make_filter_based_on_rtpstream_info` of `ui/qt/utils/qt_ui_utils.cpp`,
  together with the part of `QString` they run on (`QString::arg`,
  `QStringList::join`, the number rendering of `QString::arg(uint, int, int)`);
* the data declarations and the constant `MAX_SILENCE_FRAMES` of `ui/rtp_stream.h`;
* the export and mark engines, whose bodies are not part of the sources at hand
  and are modelled from the design document.

A `QString` is a sequence of characters.
-/

namespace RtpStream

/-! ## QString -/

/-- A QString is modelled by the sequence of its characters. -/
abbrev QString := List Char

/-- QChar::digitValue (none stands for -1): the value of an ASCII digit, no value for any other
ASCII character, and for a character beyond ASCII the value `ud` gives it (Qt 5 takes every
Unicode decimal digit, later versions the ASCII digits only). -/
def digitValue (ud : Char → Option Nat) (c : Char) : Option Nat :=
  if 48 ≤ c.toNat ∧ c.toNat ≤ 57 then some (c.toNat - 48)
  else if c.toNat < 128 then none
  else ud c

/-- What the scanners of QString::arg (findArgEscapes and replaceArgEscapes in qstring.cpp) see in
a string: plain characters and place markers. A place marker is a percent sign, an optional L and
one or two digits; `esc n loc raw` is the marker numbered `n`, with `loc` telling whether the L is
there and `raw` the characters it is written with. -/
inductive ArgToken where
  | lit (c : Char)
  | esc (n : Nat) (loc : Bool) (raw : QString)
deriving DecidableEq, Repr

/-- The digits of a place marker: one digit, or two when the next character is a digit as well.
Returns the number and how many characters it takes. -/
def escapeDigits (ud : Char → Option Nat) (cs : QString) : Option (Nat × Nat) :=
  match cs with
  | [] => none
  | d1 :: r =>
    match digitValue ud d1 with
    | none => none
    | some v1 =>
      match r with
      | [] => some (v1, 1)
      | d2 :: _ =>
        match digitValue ud d2 with
        | none => some (v1, 1)
        | some v2 => some (10 * v1 + v2, 2)

/-- The place marker that starts right after a percent sign, if there is one: its number, whether
it carries the L, and the number of characters it takes after the percent sign. -/
def escapeAt (ud : Char → Option Nat) (cs : QString) : Option (Nat × Bool × Nat) :=
  match cs with
  | [] => none
  | x :: r =>
    if x = 'L' then (escapeDigits ud r).map (fun p => (p.1, true, p.2 + 1))
    else (escapeDigits ud cs).map (fun p => (p.1, false, p.2))

/-- The left-to-right scan of findArgEscapes and replaceArgEscapes. The first argument counts the
characters still to be skipped because they belong to the marker just read. A percent sign that
starts no marker is a plain character and the scan resumes right after it. -/
def tokenizeAux (ud : Char → Option Nat) : Nat → QString → List ArgToken
  | _, [] => []
  | k + 1, _ :: cs => tokenizeAux ud k cs
  | 0, c :: cs =>
    if c = '%' then
      match escapeAt ud cs with
      | some (n, loc, len) => .esc n loc (c :: cs.take len) :: tokenizeAux ud len cs
      | none => .lit c :: tokenizeAux ud 0 cs
    else .lit c :: tokenizeAux ud 0 cs

/-- The plain characters and place markers of a string. -/
def tokenize (ud : Char → Option Nat) (s : QString) : List ArgToken := tokenizeAux ud 0 s

/-- The lowest place-marker number of a string (d.min_escape of findArgEscapes); none when the
string has no place marker (d.occurrences == 0). -/
def minEscape : List ArgToken → Option Nat
  | [] => none
  | .lit _ :: ts => minEscape ts
  | .esc n _ _ :: ts =>
    match minEscape ts with
    | none => some n
    | some m => some (min n m)

/-- The work of replaceArgEscapes: every marker numbered `n` is replaced, by `la` when it carries
the L and by `a` otherwise; everything else is copied. -/
def substitute (n : Nat) (a la : QString) : List ArgToken → QString
  | [] => []
  | .lit c :: ts => c :: substitute n a la ts
  | .esc m loc raw :: ts =>
    (if m = n then (if loc then la else a) else raw) ++ substitute n a la ts

/-- The common body of the QString::arg overloads: the lowest numbered place marker is replaced at
all its occurrences; a string without place marker is returned unchanged. -/
def QString.argWith (ud : Char → Option Nat) (s a la : QString) : QString :=
  match minEscape (tokenize ud s) with
  | none => s
  | some n => substitute n a la (tokenize ud s)

/-- QString::arg(const QString &a) with the default field width 0. -/
def QString.arg (ud : Char → Option Nat) (s a : QString) : QString :=
  QString.argWith ud s a a

/-- One digit of qulltoa: 0 to 9, then lower-case letters from a. -/
def digitChar (c : Nat) : Char :=
  if c < 10 then Char.ofNat (48 + c) else Char.ofNat (c - 10 + 97)

/-- The loop of qulltoa: digits are produced from the least significant one and put in front of
what is already there. The first argument bounds the number of iterations; 64 suffice for a
qulonglong in every base. -/
def qulltoaLoop (base : Nat) : Nat → Nat → QString → QString
  | 0, _, acc => acc
  | fuel + 1, l, acc =>
    if l = 0 then acc else qulltoaLoop base fuel (l / base) (digitChar (l % base) :: acc)

/-- QLocaleData::unsLongLongToString in the C locale, without padding: the digits of a qulonglong,
and 0 for zero. -/
def unsLongLongToString (l base : Nat) : QString :=
  if l % 2 ^ 64 = 0 then ['0'] else qulltoaLoop base 64 (l % 2 ^ 64) []

/-- QString::arg(ushort or uint a, int fieldWidth = 0, int base): markers without L take the C
rendering of the number, markers with L the rendering `localeText` of the default locale. -/
def QString.argNumber (ud : Char → Option Nat) (localeText : Nat → Nat → QString) (s : QString)
    (a base : Nat) : QString :=
  QString.argWith ud s (unsLongLongToString a base) (localeText a base)

/-- QStringList::join: the elements in order, the separator before every element but the first. -/
def QStringList_join (that : List QString) (sep : QString) : QString :=
  (that.foldl
    (fun (st : QString × Nat) (s : QString) =>
      ((if st.2 ≠ 0 then st.1 ++ sep else st.1) ++ s, st.2 + 1))
    ([], 0)).1

/-! ## Addresses and stream identities -/

/-- Modelled from the spec: the address families of an endpoint address (the enumeration of
epan/address.h is not among the sources at hand). The code tells AT_IPv6 from all the others. -/
inductive address_type where
  | AT_NONE
  | AT_ETHER
  | AT_IPv4
  | AT_IPv6
  | AT_STRINGZ
  | AT_OTHER (n : Nat)
deriving DecidableEq, Repr

/-- Modelled from the spec: an endpoint address, a family and the bytes of the address (struct
_address of epan/address.h is not among the sources at hand). -/
structure _address where
  type : address_type
  data : List Nat
deriving DecidableEq, Repr

/-- Modelled from the spec: the Stream Identity of section 3 (rtpstream_id_t of
ui/rtp_stream_id.h is not among the sources at hand). The ports are 16-bit, the synchronization
source is 32-bit; the fields are named as make_filter_based_on_rtpstream_id reads them. -/
structure rtpstream_id_t where
  src_addr : _address
  src_port : Nat
  dst_addr : _address
  dst_port : Nat
  ssrc : Nat
deriving DecidableEq, Repr

/-- The ports of an identity fit in 16 bits and its synchronization source in 32 bits. -/
def rtpstream_id_t.inRange (id : rtpstream_id_t) : Prop :=
  id.src_port < 2 ^ 16 ∧ id.dst_port < 2 ^ 16 ∧ id.ssrc < 2 ^ 32

instance (id : rtpstream_id_t) : Decidable id.inRange :=
  inferInstanceAs (Decidable (id.src_port < 2 ^ 16 ∧ id.dst_port < 2 ^ 16 ∧ id.ssrc < 2 ^ 32))

/-- What qt_ui_utils.cpp takes from outside the sources at hand: the text address_to_str gives an
address, the text the default locale gives a number in a base (used by QString::arg at markers
with an L), the default value that the declaration of address_to_qstring in qt_ui_utils.h
gives its parameter enclose, and the digit value QChar::digitValue gives a character beyond
ASCII. -/
structure Externals where
  address_to_str : _address → QString
  localeText : Nat → Nat → QString
  encloseDefault : Bool
  unicodeDigit : Char → Option Nat

/-- The function address_to_qstring of qt_ui_utils.cpp; the address pointer is an Option. -/
def address_to_qstring (ext : Externals) (address : Option _address) (enclose : Bool) : QString :=
  let address_qstr : QString := []
  match address with
  | some a =>
    let address_qstr :=
      if enclose ∧ a.type = address_type.AT_IPv6 then address_qstr ++ ['['] else address_qstr
    let address_qstr := address_qstr ++ ext.address_to_str a
    if enclose ∧ a.type = address_type.AT_IPv6 then address_qstr ++ [']'] else address_qstr
  | none => address_qstr

/-- The format string of a clause in make_filter_based_on_rtpstream_id. -/
def clauseTemplate : QString :=
  "(%1.src==%2 && udp.srcport==%3 && %1.dst==%4 && udp.dstport==%5 && rtp.ssrc==0x%6)".toList

/-- The body of the foreach loop of make_filter_based_on_rtpstream_id: the clause of one identity.
The calls of address_to_qstring pass no enclose argument. -/
def rtpstream_id_clause (ext : Externals) (id : rtpstream_id_t) : QString :=
  let ip_proto : QString :=
    if id.src_addr.type = address_type.AT_IPv6 then "ipv6".toList else "ip".toList
  QString.argNumber ext.unicodeDigit ext.localeText
    (QString.argNumber ext.unicodeDigit ext.localeText
      (QString.arg ext.unicodeDigit
        (QString.argNumber ext.unicodeDigit ext.localeText
          (QString.arg ext.unicodeDigit
            (QString.arg ext.unicodeDigit clauseTemplate ip_proto)
            (address_to_qstring ext (some id.src_addr) ext.encloseDefault))
          (id.src_port % 2 ^ 16) 10)
        (address_to_qstring ext (some id.dst_addr) ext.encloseDefault))
      (id.dst_port % 2 ^ 16) 10)
    (id.ssrc % 2 ^ 32) 16

/-- The function make_filter_based_on_rtpstream_id of qt_ui_utils.cpp. -/
def make_filter_based_on_rtpstream_id (ext : Externals) (ids : List rtpstream_id_t) : QString :=
  let stream_filters : List QString :=
    ids.foldl (fun acc id => acc ++ [rtpstream_id_clause ext id]) []
  if stream_filters.length > 0 then QStringList_join stream_filters " || ".toList else []


/-! ## Stream records and the tap (ui/rtp_stream.h) -/

/-- Modelled from the spec: a reference to a captured frame (frame_data of epan is not among the
sources at hand); the frame number stands for the reference. -/
structure frame_data where
  num : Nat
deriving DecidableEq

/-- Modelled from the spec: a time stamp in seconds and nanoseconds (nstime_t of wsutil is not
among the sources at hand). -/
structure nstime_t where
  secs : Int
  nsecs : Int
deriving DecidableEq

/-- Modelled from the spec: the statistics sub-record of a stream (tap_rtp_stat_t of
tap-rtp-analysis.h is not among the sources at hand), kept as its list of counters. -/
structure tap_rtp_stat_t where
  counters : List Int
deriving DecidableEq

/-- The struct _rtpstream_info of rtp_stream.h. Strings are QStrings, pointers are Options. -/
structure rtpstream_info_t where
  id : rtpstream_id_t
  first_payload_type : Nat
  first_payload_type_name : Option QString
  payload_type_names : List (Option QString)
  all_payload_type_names : Option QString
  is_srtp : Bool
  packet_count : Nat
  end_stream : Bool
  rtp_event : Int
  call_num : Int
  setup_frame_number : Nat
  start_fd : Option frame_data
  stop_fd : Option frame_data
  start_rel_time : nstime_t
  stop_rel_time : nstime_t
  start_abs_time : nstime_t
  vlan_id : Nat
  tag_vlan_error : Bool
  tag_diffserv_error : Bool
  rtp_stats : tap_rtp_stat_t
  problem : Bool
  ed137_info : Option QString
deriving DecidableEq

/-- The tapping modes of rtp_stream.h. -/
inductive tap_mode_t where
  | TAP_ANALYSE
  | TAP_SAVE
  | TAP_MARK
deriving DecidableEq

/-- The struct _rtpstream_tapinfo of rtp_stream.h. A callback field tells whether a callback is
registered; what a callback does lies outside the tap. The hash index of the stream list, the
callback data and the output file handle are left out. -/
structure rtpstream_tapinfo_t where
  tap_reset : Bool
  tap_draw : Bool
  tap_mark_packet : Bool
  nstreams : Int
  strinfo_list : List rtpstream_info_t
  npackets : Int
  mode : tap_mode_t
  filter_stream_fwd : Option rtpstream_info_t
  filter_stream_rev : Option rtpstream_info_t
  is_registered : Bool
  apply_display_filter : Bool
deriving DecidableEq

/-- The constant MAX_SILENCE_FRAMES of rtp_stream.h. -/
def MAX_SILENCE_FRAMES : Nat := 14400000

/-- The function make_filter_based_on_rtpstream_info of qt_ui_utils.cpp. -/
def make_filter_based_on_rtpstream_info (ext : Externals) (streams : List rtpstream_info_t) :
    QString :=
  let ids : List rtpstream_id_t := streams.foldl (fun acc stream_info => acc ++ [stream_info.id]) []
  make_filter_based_on_rtpstream_id ext ids

/-! ## The export and mark engines, from the design document -/

/-- Modelled from the spec: the RTP attributes the packet source delivers for a packet (section
6), as far as the export and mark engines read them: the Stream Identity, the payload, the arrival
time and the expected duration until the next packet of the stream, both counted in frames. -/
structure rtp_attributes where
  id : rtpstream_id_t
  payload : List Nat
  arrival : Nat
  duration : Nat
deriving DecidableEq

/-- Modelled from the spec: a packet of the capture (section 6): its frame reference and its RTP
attributes, absent for a packet that is not RTP. -/
structure packet where
  fd : frame_data
  rtp : Option rtp_attributes
deriving DecidableEq

/-- Modelled from the spec: what the export engine writes (section 6, export output format): the
payload of a packet or one synthesized silence frame. -/
inductive out_frame where
  | payload (bytes : List Nat)
  | silence
deriving DecidableEq

/-- Modelled from the spec: the gap between two consecutive packets of a stream in expected
silence units (section 4.4): by how much the elapsed time between them exceeds the expected
duration of the first, and zero when it does not. -/
def silence_gap (p1 p2 : rtp_attributes) : Nat :=
  (p2.arrival - p1.arrival) - p1.duration

/-- Modelled from the spec: the number of silence frames synthesized for a gap (section 4.4):
when the gap exceeds the ceiling, the ceiling and no more. -/
def silence_frames (gap : Nat) : Nat :=
  if gap > MAX_SILENCE_FRAMES then MAX_SILENCE_FRAMES else gap

/-- Modelled from the spec: the frames written for the packets of one stream, in order (section
4.4); the first argument is the packet written last. -/
def export_frames : Option rtp_attributes → List rtp_attributes → List out_frame
  | _, [] => []
  | none, p :: ps => out_frame.payload p.payload :: export_frames (some p) ps
  | some q, p :: ps =>
    List.replicate (silence_frames (silence_gap q p)) out_frame.silence ++
      out_frame.payload p.payload :: export_frames (some p) ps

/-- Modelled from the spec: the packets of a capture that carry RTP attributes with the given
Stream Identity, in frame order (sections 4.4 and 6). -/
def stream_packets (cap_file : List packet) (id : rtpstream_id_t) : List rtp_attributes :=
  cap_file.filterMap (fun p =>
    match p.rtp with
    | some a => if a.id = id then some a else none
    | none => none)

/-- Modelled from the spec: rtpstream_save, whose body is not among the sources at hand (section
4.4). The last argument tells whether the destination can be opened and written; the result is
the success flag and the frames written. The stream table of the tap is only read. -/
def rtpstream_save (_tapinfo : rtpstream_tapinfo_t) (cap_file : List packet)
    (stream : rtpstream_info_t) (writable : Bool) : Bool × List out_frame :=
  if writable then (true, export_frames none (stream_packets cap_file stream.id))
  else (false, [])

/-- Modelled from the spec: whether a packet identity is the identity of a given record; an
absent record matches nothing (section 4.5). -/
def matches_stream (id : rtpstream_id_t) (stream : Option rtpstream_info_t) : Bool :=
  match stream with
  | some s => decide (s.id = id)
  | none => false

/-- Modelled from the spec: what a mark pass yields: the tap afterwards, the frames handed to the
mark callback in the order of the calls, and the number of packets gone through. -/
structure mark_result where
  tapinfo : rtpstream_tapinfo_t
  marked : List frame_data
  dissected : Nat

/-- Modelled from the spec: rtpstream_mark, whose body is not among the sources at hand (section
4.5): one pass over the capture in mark mode; the registered mark callback is invoked for every
packet whose identity is that of the forward or of the reverse record. The stream table is not
touched. -/
def rtpstream_mark (tapinfo : rtpstream_tapinfo_t) (cap_file : List packet)
    (stream_fwd stream_rev : Option rtpstream_info_t) : mark_result :=
  let session : rtpstream_tapinfo_t :=
    { tapinfo with
      mode := tap_mode_t.TAP_MARK
      filter_stream_fwd := stream_fwd
      filter_stream_rev := stream_rev }
  let pass := cap_file.foldl
    (fun (st : List frame_data × Nat) (p : packet) =>
      match p.rtp with
      | some a =>
        if session.tap_mark_packet &&
            (matches_stream a.id session.filter_stream_fwd ||
              matches_stream a.id session.filter_stream_rev)
        then (st.1 ++ [p.fd], st.2 + 1) else (st.1, st.2 + 1)
      | none => (st.1, st.2 + 1))
    ([], 0)
  ⟨session, pass.1, pass.2⟩

/-! ## The claims' side: the clause as the design document writes it, and sample inputs -/

/-- The clause as the claims write it: family name F, address literals S and D, port texts SP and
DP, and synchronization source text H. -/
def expectedClause (F S SP D DP H : QString) : QString :=
  "(".toList ++ (F ++ (".src==".toList ++ (S ++ (" && udp.srcport==".toList ++ (SP ++
    (" && ".toList ++ (F ++ (".dst==".toList ++ (D ++ (" && udp.dstport==".toList ++ (DP ++
    (" && rtp.ssrc==0x".toList ++ (H ++ ")".toList)))))))))))))

/-- The family name of a clause: ipv6 for an IPv6 source address, ip otherwise. -/
def familyName (id : rtpstream_id_t) : QString :=
  if id.src_addr.type = address_type.AT_IPv6 then "ipv6".toList else "ip".toList

/-- The address literal with brackets exactly when the flag is set. -/
def bracketIf (b : Bool) (text : QString) : QString :=
  if b then '[' :: (text ++ [']']) else text

/-- A string starts safely when its first character, if any, can continue no place marker: it is
neither the L nor a digit. -/
def safeStart (ud : Char → Option Nat) : QString → Bool
  | [] => true
  | c :: _ => c ≠ 'L' && (digitValue ud c).isNone

/-- A string has a place marker when QString::arg finds something to replace in it. -/
def hasPlaceMarker (ud : Char → Option Nat) (s : QString) : Bool :=
  (minEscape (tokenize ud s)).isSome

/-- The characters of a rendered number: the decimal digits and the letters a to f. -/
def isHexChar (c : Char) : Bool :=
  (48 ≤ c.toNat && c.toNat ≤ 57) || (97 ≤ c.toNat && c.toNat ≤ 102)

/-- The value of a character of a rendered number. -/
def hexVal (c : Char) : Nat :=
  if c.toNat ≤ 57 then c.toNat - 48 else c.toNat - 87

/-- Reads a rendered number back, most significant digit first. -/
def decodeNumber (base : Nat) (cs : QString) : Nat :=
  cs.foldl (fun acc c => acc * base + hexVal c) 0

/-- The bytes of a text, for sample addresses. -/
def textBytes (s : String) : List Nat := s.toList.map Char.toNat

/-- Sample surroundings: address_to_str reads the bytes of an address as the characters of its
text (as it does for an AT_STRINGZ address), the default locale renders numbers as the C locale
does, enclose defaults to false, and no character beyond ASCII is a digit. -/
def sampleExternals : Externals :=
  ⟨fun a => a.data.map Char.ofNat, fun v b => unsLongLongToString v b, false, fun _ => none⟩

/-- The sample surroundings with enclose defaulting to true. -/
def sampleExternalsEnclosing : Externals :=
  ⟨fun a => a.data.map Char.ofNat, fun v b => unsLongLongToString v b, true, fun _ => none⟩

/-- A sample IPv4 stream identity. -/
def sampleId4 : rtpstream_id_t :=
  ⟨⟨address_type.AT_IPv4, textBytes "10.0.0.1"⟩, 5004,
    ⟨address_type.AT_IPv4, textBytes "10.0.0.2"⟩, 6000, 3735928559⟩

/-- A sample IPv6 stream identity. -/
def sampleId6 : rtpstream_id_t :=
  ⟨⟨address_type.AT_IPv6, textBytes "2001:db8::1"⟩, 5004,
    ⟨address_type.AT_IPv6, textBytes "2001:db8::2"⟩, 6000, 255⟩

/-- A stream identity whose source address is the AT_STRINGZ text made of the place marker of
number 1. -/
def markerId : rtpstream_id_t :=
  ⟨⟨address_type.AT_STRINGZ, textBytes "%1"⟩, 80,
    ⟨address_type.AT_IPv4, textBytes "10.0.0.2"⟩, 6000, 255⟩

/-- Two stream identities with the same AT_STRINGZ addresses, made of place markers, and different
ports: the first. -/
def markerIdA : rtpstream_id_t :=
  ⟨⟨address_type.AT_STRINGZ, textBytes "%1%2"⟩, 1,
    ⟨address_type.AT_STRINGZ, textBytes "%2"⟩, 23, 255⟩

/-- The second of the two stream identities with place markers for addresses. -/
def markerIdB : rtpstream_id_t :=
  ⟨⟨address_type.AT_STRINGZ, textBytes "%1%2"⟩, 12,
    ⟨address_type.AT_STRINGZ, textBytes "%2"⟩, 3, 255⟩

/-- A sample stream record with the given identity and nothing counted yet. -/
def sampleStream (id : rtpstream_id_t) : rtpstream_info_t :=
  { id := id
    first_payload_type := 0
    first_payload_type_name := none
    payload_type_names := []
    all_payload_type_names := none
    is_srtp := false
    packet_count := 0
    end_stream := false
    rtp_event := 0
    call_num := 0
    setup_frame_number := 0
    start_fd := none
    stop_fd := none
    start_rel_time := ⟨0, 0⟩
    stop_rel_time := ⟨0, 0⟩
    start_abs_time := ⟨0, 0⟩
    vlan_id := 0
    tag_vlan_error := false
    tag_diffserv_error := false
    rtp_stats := ⟨[]⟩
    problem := false
    ed137_info := none }

/-- A sample tap holding one stream, with a mark callback registered. -/
def sampleTap : rtpstream_tapinfo_t :=
  { tap_reset := true
    tap_draw := true
    tap_mark_packet := true
    nstreams := 1
    strinfo_list := [sampleStream sampleId4]
    npackets := 2
    mode := tap_mode_t.TAP_ANALYSE
    filter_stream_fwd := none
    filter_stream_rev := none
    is_registered := true
    apply_display_filter := false }

/-- The first of two sample packets of the sample IPv4 stream: 160 frames expected until the
next packet. -/
def samplePacket1 : rtp_attributes := ⟨sampleId4, [1, 2], 0, 160⟩

/-- The second sample packet, arriving 163 frames after the first. -/
def samplePacket2 : rtp_attributes := ⟨sampleId4, [3, 4], 163, 160⟩

/-! ## Facts about the scan of place markers -/

variable {ud : Char → Option Nat}

theorem tokenizeAux_nil (k : Nat) : tokenizeAux ud k [] = [] := by
  cases k <;> rfl

theorem tokenizeAux_skip (k : Nat) (s : QString) :
    tokenizeAux ud k s = tokenize ud (s.drop k) := by
  induction k generalizing s with
  | zero => rfl
  | succ k ih =>
    cases s with
    | nil => rfl
    | cons c cs => simpa [tokenizeAux] using ih cs

theorem tokenize_nil : tokenize ud [] = [] := rfl

theorem tokenize_cons_ne (c : Char) (s : QString) (h : c ≠ '%') :
    tokenize ud (c :: s) = ArgToken.lit c :: tokenize ud s := by
  simp [tokenize, tokenizeAux, h]

theorem tokenize_percent_none (cs : QString) (h : escapeAt ud cs = none) :
    tokenize ud ('%' :: cs) = ArgToken.lit '%' :: tokenize ud cs := by
  unfold tokenize
  rw [tokenizeAux, if_pos rfl, h]

theorem tokenize_percent_some (cs : QString) (n : Nat) (loc : Bool) (len : Nat)
    (h : escapeAt ud cs = some (n, loc, len)) :
    tokenize ud ('%' :: cs) = ArgToken.esc n loc ('%' :: cs.take len) :: tokenize ud (cs.drop len) := by
  rw [← tokenizeAux_skip]
  unfold tokenize
  rw [tokenizeAux, if_pos rfl, h]

theorem escapeDigits_len (cs : QString) (v n : Nat) (h : escapeDigits ud cs = some (v, n)) :
    n ≤ cs.length := by
  unfold escapeDigits at h
  split at h
  · simp at h
  · split at h
    · simp at h
    · split at h
      · simp at h; simp; omega
      · split at h <;> simp at h <;> simp <;> omega

theorem escapeAt_len (cs : QString) (n : Nat) (loc : Bool) (len : Nat)
    (h : escapeAt ud cs = some (n, loc, len)) : len ≤ cs.length := by
  unfold escapeAt at h
  split at h
  · simp at h
  · rename_i x r
    split at h
    · simp only [Option.map_eq_some'] at h
      obtain ⟨p, hp, hq⟩ := h
      have := escapeDigits_len r p.1 p.2 hp
      simp at hq
      simp; omega
    · simp only [Option.map_eq_some'] at h
      obtain ⟨p, hp, hq⟩ := h
      have := escapeDigits_len (x :: r) p.1 p.2 hp
      simp at hq
      omega

theorem escapeDigits_append (cs k : QString) (hk : ∀ c r, k = c :: r → digitValue ud c = none) :
    escapeDigits ud (cs ++ k) = escapeDigits ud cs := by
  cases cs with
  | nil =>
    cases k with
    | nil => rfl
    | cons c r => simp [escapeDigits, hk c r rfl]
  | cons d1 r1 =>
    cases r1 with
    | nil =>
      cases k with
      | nil => rfl
      | cons c r => simp [escapeDigits, hk c r rfl]
    | cons d2 r2 => simp [escapeDigits]

theorem escapeAt_append (cs k : QString) (hk : safeStart ud k = true) :
    escapeAt ud (cs ++ k) = escapeAt ud cs := by
  have hd : ∀ c r, k = c :: r → digitValue ud c = none := by
    intro c r h
    subst h
    simp [safeStart] at hk
    exact hk.2
  cases cs with
  | nil =>
    cases k with
    | nil => rfl
    | cons c r =>
      have h1 : c ≠ 'L' := by
        simp [safeStart] at hk
        exact hk.1
      simp [escapeAt, h1, escapeDigits, hd c r rfl]
  | cons x r =>
    by_cases hx : x = 'L'
    · simp [escapeAt, hx, escapeDigits_append r k hd]
    · have := escapeDigits_append (x :: r) k hd
      simp only [List.cons_append] at this
      simp [escapeAt, hx, this]

theorem tokenize_append_aux (n : Nat) : ∀ (t k : QString), t.length ≤ n → safeStart ud k = true →
    tokenize ud (t ++ k) = tokenize ud t ++ tokenize ud k := by
  induction n with
  | zero =>
    intro t k ht _
    have : t = [] := List.length_eq_zero.mp (by omega)
    subst this
    rfl
  | succ n ih =>
    intro t k ht hk
    cases t with
    | nil => rfl
    | cons c cs =>
      have hcs : cs.length ≤ n := by simp at ht; omega
      by_cases hc : c = '%'
      · subst hc
        cases he : escapeAt ud cs with
        | none =>
          have he2 : escapeAt ud (cs ++ k) = none := by rw [escapeAt_append cs k hk, he]
          rw [List.cons_append, tokenize_percent_none _ he2, tokenize_percent_none _ he,
            ih cs k hcs hk, List.cons_append]
        | some p =>
          obtain ⟨m, loc, len⟩ := p
          have he2 : escapeAt ud (cs ++ k) = some (m, loc, len) := by
            rw [escapeAt_append cs k hk, he]
          have hl := escapeAt_len cs m loc len he
          rw [List.cons_append, tokenize_percent_some _ _ _ _ he2,
            tokenize_percent_some _ _ _ _ he, List.take_append_of_le_length hl,
            List.drop_append_of_le_length hl,
            ih (cs.drop len) k (by simp; omega) hk, List.cons_append]
      · rw [List.cons_append, tokenize_cons_ne _ _ hc, tokenize_cons_ne _ _ hc,
          ih cs k hcs hk, List.cons_append]

/-- The scan of a string followed by a string that starts safely is the scan of the first
followed by the scan of the second. -/
theorem tokenize_append (t k : QString) (hk : safeStart ud k = true) :
    tokenize ud (t ++ k) = tokenize ud t ++ tokenize ud k :=
  tokenize_append_aux t.length t k (le_refl _) hk

theorem tokenize_append_noPercent (t k : QString) (ht : ∀ c ∈ t, c ≠ '%') :
    tokenize ud (t ++ k) = t.map ArgToken.lit ++ tokenize ud k := by
  induction t with
  | nil => rfl
  | cons c cs ih =>
    have hc : c ≠ '%' := ht c (by simp)
    rw [List.cons_append, tokenize_cons_ne _ _ hc, ih (fun x hx => ht x (by simp [hx]))]
    rfl

theorem minEscape_esc_ne_none (n : Nat) (loc : Bool) (raw : QString) (ts : List ArgToken) :
    minEscape (ArgToken.esc n loc raw :: ts) ≠ none := by
  simp only [minEscape]
  split <;> simp

theorem tokenize_plain_aux (n : Nat) : ∀ t : QString, t.length ≤ n → hasPlaceMarker ud t = false →
    tokenize ud t = t.map ArgToken.lit := by
  induction n with
  | zero =>
    intro t ht _
    have : t = [] := List.length_eq_zero.mp (by omega)
    subst this
    rfl
  | succ n ih =>
    intro t ht hm
    cases t with
    | nil => rfl
    | cons c cs =>
      have hcs : cs.length ≤ n := by simp at ht; omega
      by_cases hc : c = '%'
      · subst hc
        cases he : escapeAt ud cs with
        | none =>
          have h1 := @tokenize_percent_none ud _ he
          have h2 : hasPlaceMarker ud cs = false := by
            simpa [hasPlaceMarker, h1, minEscape] using hm
          rw [h1, ih cs hcs h2]
          rfl
        | some p =>
          obtain ⟨m, loc, len⟩ := p
          have h1 := @tokenize_percent_some ud _ _ _ _ he
          exfalso
          have h3 := minEscape_esc_ne_none m loc ('%' :: cs.take len) (tokenize ud (cs.drop len))
          rw [← h1] at h3
          simp [hasPlaceMarker] at hm
          exact h3 hm
      · have h1 := @tokenize_cons_ne ud c cs hc
        have h2 : hasPlaceMarker ud cs = false := by
          simpa [hasPlaceMarker, h1, minEscape] using hm
        rw [h1, ih cs hcs h2]
        rfl

/-- A string without place marker is scanned as plain characters. -/
theorem tokenize_plain (t : QString) (h : hasPlaceMarker ud t = false) :
    tokenize ud t = t.map ArgToken.lit :=
  tokenize_plain_aux t.length t (le_refl _) h


/-! ## Facts about QString::arg -/

theorem minEscape_lits (t : QString) (ts : List ArgToken) :
    minEscape (t.map ArgToken.lit ++ ts) = minEscape ts := by
  induction t with
  | nil => rfl
  | cons c cs ih => simpa [minEscape] using ih

theorem substitute_lits (n : Nat) (a la t : QString) (ts : List ArgToken) :
    substitute n a la (t.map ArgToken.lit ++ ts) = t ++ substitute n a la ts := by
  induction t with
  | nil => rfl
  | cons c cs ih => simpa [substitute] using ih

theorem substitute_append (n : Nat) (a la : QString) (ts us : List ArgToken) :
    substitute n a la (ts ++ us) = substitute n a la ts ++ substitute n a la us := by
  induction ts with
  | nil => rfl
  | cons t ts ih =>
    cases t with
    | lit c => simp [substitute, ih]
    | esc m loc raw => simp [substitute, ih]

theorem minEscape_append_lit (ts : List ArgToken) (c : Char) :
    minEscape (ts ++ [ArgToken.lit c]) = minEscape ts := by
  induction ts with
  | nil => rfl
  | cons t ts ih =>
    cases t with
    | lit d => simpa [minEscape] using ih
    | esc m loc raw => simp [minEscape, ih]

theorem argWith_of_tokenize (t k a la : QString)
    (h : tokenize ud (t ++ k) = t.map ArgToken.lit ++ tokenize ud k) :
    QString.argWith ud (t ++ k) a la = t ++ QString.argWith ud k a la := by
  unfold QString.argWith
  rw [h, minEscape_lits]
  cases minEscape (tokenize ud k) with
  | none => rfl
  | some n => simp [substitute_lits]

/-- QString::arg copies a leading part that has no percent sign. -/
theorem argWith_append_noPercent (t k a la : QString) (ht : ∀ c ∈ t, c ≠ '%') :
    QString.argWith ud (t ++ k) a la = t ++ QString.argWith ud k a la :=
  argWith_of_tokenize t k a la (tokenize_append_noPercent t k ht)

/-- QString::arg copies a leading part that has no place marker, when what follows it starts
safely. -/
theorem argWith_append_plain (t k a la : QString) (ht : hasPlaceMarker ud t = false)
    (hk : safeStart ud k = true) :
    QString.argWith ud (t ++ k) a la = t ++ QString.argWith ud k a la := by
  apply argWith_of_tokenize
  rw [tokenize_append t k hk, tokenize_plain t ht]

/-- QString::arg keeps an opening parenthesis at the start and a closing one at the end. -/
theorem argWith_wrapped (m a la : QString) :
    ∃ m2, QString.argWith ud ('(' :: (m ++ [')'])) a la = '(' :: (m2 ++ [')']) := by
  have h1 : tokenize ud ('(' :: (m ++ [')'])) =
      ArgToken.lit '(' :: (tokenize ud m ++ [ArgToken.lit ')']) := by
    rw [tokenize_cons_ne _ _ (by decide), tokenize_append m [')'] (by rfl)]
    rfl
  unfold QString.argWith
  rw [h1]
  simp only [minEscape, minEscape_append_lit]
  cases minEscape (tokenize ud m) with
  | none => exact ⟨m, rfl⟩
  | some n =>
    refine ⟨substitute n a la (tokenize ud m), ?_⟩
    simp [substitute, substitute_append]

theorem hasPlaceMarker_of_noPercent (t : QString) (ht : ∀ c ∈ t, c ≠ '%') :
    hasPlaceMarker ud t = false := by
  have := @tokenize_append_noPercent ud t [] ht
  simp only [List.append_nil, tokenize_nil] at this
  unfold hasPlaceMarker
  rw [this]
  have h2 := minEscape_lits t []
  simp only [List.append_nil] at h2
  rw [h2]
  rfl

theorem hasPlaceMarker_bracket (t : QString) (ht : hasPlaceMarker ud t = false) :
    hasPlaceMarker ud ('[' :: (t ++ [']'])) = false := by
  unfold hasPlaceMarker
  rw [tokenize_cons_ne _ _ (by decide), tokenize_append t [']'] (by rfl), tokenize_plain t ht]
  have : tokenize ud [']'] = [ArgToken.lit ']'] := rfl
  rw [this]
  simp only [minEscape]
  have h2 := minEscape_lits t [ArgToken.lit ']']
  rw [h2]
  rfl

theorem clauseTemplate_args_ip (S D a1 la1 a2 la2 a3 la3 : QString)
    (hS : hasPlaceMarker ud S = false) (hD : hasPlaceMarker ud D = false)
    (h1 : ∀ c ∈ a1, c ≠ '%') (h2 : ∀ c ∈ a2, c ≠ '%') :
    QString.argWith ud (QString.argWith ud (QString.arg ud (QString.argWith ud (QString.arg ud
      (QString.arg ud clauseTemplate "ip".toList) S) a1 la1) D) a2 la2) a3 la3 =
    "(ip.src==".toList ++ (S ++ (" && udp.srcport==".toList ++ (a1 ++
      (" && ip.dst==".toList ++ (D ++ (" && udp.dstport==".toList ++ (a2 ++
      (" && rtp.ssrc==0x".toList ++ (a3 ++ ")".toList))))))))) := by
  have e2 : QString.arg ud (QString.arg ud clauseTemplate "ip".toList) S =
      "(ip.src==".toList ++ (S ++
        " && udp.srcport==%3 && ip.dst==%4 && udp.dstport==%5 && rtp.ssrc==0x%6)".toList) := by
    rfl
  have r3 : QString.argWith ud
      " && udp.srcport==%3 && ip.dst==%4 && udp.dstport==%5 && rtp.ssrc==0x%6)".toList a1 la1 =
      " && udp.srcport==".toList ++ (a1 ++
        " && ip.dst==%4 && udp.dstport==%5 && rtp.ssrc==0x%6)".toList) := by
    rfl
  have r4 : QString.argWith ud " && ip.dst==%4 && udp.dstport==%5 && rtp.ssrc==0x%6)".toList D D =
      " && ip.dst==".toList ++ (D ++ " && udp.dstport==%5 && rtp.ssrc==0x%6)".toList) := by
    rfl
  have r5 : QString.argWith ud " && udp.dstport==%5 && rtp.ssrc==0x%6)".toList a2 la2 =
      " && udp.dstport==".toList ++ (a2 ++ " && rtp.ssrc==0x%6)".toList) := by
    rfl
  have r6 : QString.argWith ud " && rtp.ssrc==0x%6)".toList a3 la3 =
      " && rtp.ssrc==0x".toList ++ (a3 ++ ")".toList) := by
    rfl
  have s3 : QString.argWith ud ("(ip.src==".toList ++ (S ++
        " && udp.srcport==%3 && ip.dst==%4 && udp.dstport==%5 && rtp.ssrc==0x%6)".toList)) a1 la1 =
      "(ip.src==".toList ++ (S ++ (" && udp.srcport==".toList ++ (a1 ++
        " && ip.dst==%4 && udp.dstport==%5 && rtp.ssrc==0x%6)".toList))) := by
    rw [argWith_append_noPercent _ _ _ _ (by decide),
      argWith_append_plain _ _ _ _ hS (by rfl), r3]
  have s4 : QString.arg ud ("(ip.src==".toList ++ (S ++ (" && udp.srcport==".toList ++ (a1 ++
        " && ip.dst==%4 && udp.dstport==%5 && rtp.ssrc==0x%6)".toList)))) D =
      "(ip.src==".toList ++ (S ++ (" && udp.srcport==".toList ++ (a1 ++
        (" && ip.dst==".toList ++ (D ++ " && udp.dstport==%5 && rtp.ssrc==0x%6)".toList))))) := by
    unfold QString.arg
    rw [argWith_append_noPercent _ _ _ _ (by decide),
      argWith_append_plain _ _ _ _ hS (by rfl),
      argWith_append_noPercent _ _ _ _ (by decide), argWith_append_noPercent _ _ _ _ h1, r4]
  have s5 : QString.argWith ud ("(ip.src==".toList ++ (S ++ (" && udp.srcport==".toList ++ (a1 ++
        (" && ip.dst==".toList ++ (D ++ " && udp.dstport==%5 && rtp.ssrc==0x%6)".toList))))))
        a2 la2 =
      "(ip.src==".toList ++ (S ++ (" && udp.srcport==".toList ++ (a1 ++
        (" && ip.dst==".toList ++ (D ++ (" && udp.dstport==".toList ++ (a2 ++
        " && rtp.ssrc==0x%6)".toList))))))) := by
    rw [argWith_append_noPercent _ _ _ _ (by decide),
      argWith_append_plain _ _ _ _ hS (by rfl),
      argWith_append_noPercent _ _ _ _ (by decide), argWith_append_noPercent _ _ _ _ h1,
      argWith_append_noPercent _ _ _ _ (by decide),
      argWith_append_plain _ _ _ _ hD (by rfl), r5]
  have s6 : QString.argWith ud ("(ip.src==".toList ++ (S ++ (" && udp.srcport==".toList ++ (a1 ++
        (" && ip.dst==".toList ++ (D ++ (" && udp.dstport==".toList ++ (a2 ++
        " && rtp.ssrc==0x%6)".toList)))))))) a3 la3 =
      "(ip.src==".toList ++ (S ++ (" && udp.srcport==".toList ++ (a1 ++
        (" && ip.dst==".toList ++ (D ++ (" && udp.dstport==".toList ++ (a2 ++
        (" && rtp.ssrc==0x".toList ++ (a3 ++ ")".toList))))))))) := by
    rw [argWith_append_noPercent _ _ _ _ (by decide),
      argWith_append_plain _ _ _ _ hS (by rfl),
      argWith_append_noPercent _ _ _ _ (by decide), argWith_append_noPercent _ _ _ _ h1,
      argWith_append_noPercent _ _ _ _ (by decide),
      argWith_append_plain _ _ _ _ hD (by rfl),
      argWith_append_noPercent _ _ _ _ (by decide), argWith_append_noPercent _ _ _ _ h2, r6]
  rw [e2, s3, s4, s5, s6]

theorem clauseTemplate_args_ipv6 (S D a1 la1 a2 la2 a3 la3 : QString)
    (hS : hasPlaceMarker ud S = false) (hD : hasPlaceMarker ud D = false)
    (h1 : ∀ c ∈ a1, c ≠ '%') (h2 : ∀ c ∈ a2, c ≠ '%') :
    QString.argWith ud (QString.argWith ud (QString.arg ud (QString.argWith ud (QString.arg ud
      (QString.arg ud clauseTemplate "ipv6".toList) S) a1 la1) D) a2 la2) a3 la3 =
    "(ipv6.src==".toList ++ (S ++ (" && udp.srcport==".toList ++ (a1 ++
      (" && ipv6.dst==".toList ++ (D ++ (" && udp.dstport==".toList ++ (a2 ++
      (" && rtp.ssrc==0x".toList ++ (a3 ++ ")".toList))))))))) := by
  have e2 : QString.arg ud (QString.arg ud clauseTemplate "ipv6".toList) S =
      "(ipv6.src==".toList ++ (S ++
        " && udp.srcport==%3 && ipv6.dst==%4 && udp.dstport==%5 && rtp.ssrc==0x%6)".toList) := by
    rfl
  have r3 : QString.argWith ud
      " && udp.srcport==%3 && ipv6.dst==%4 && udp.dstport==%5 && rtp.ssrc==0x%6)".toList a1 la1 =
      " && udp.srcport==".toList ++ (a1 ++
        " && ipv6.dst==%4 && udp.dstport==%5 && rtp.ssrc==0x%6)".toList) := by
    rfl
  have r4 : QString.argWith ud " && ipv6.dst==%4 && udp.dstport==%5 && rtp.ssrc==0x%6)".toList D D =
      " && ipv6.dst==".toList ++ (D ++ " && udp.dstport==%5 && rtp.ssrc==0x%6)".toList) := by
    rfl
  have r5 : QString.argWith ud " && udp.dstport==%5 && rtp.ssrc==0x%6)".toList a2 la2 =
      " && udp.dstport==".toList ++ (a2 ++ " && rtp.ssrc==0x%6)".toList) := by
    rfl
  have r6 : QString.argWith ud " && rtp.ssrc==0x%6)".toList a3 la3 =
      " && rtp.ssrc==0x".toList ++ (a3 ++ ")".toList) := by
    rfl
  have s3 : QString.argWith ud ("(ipv6.src==".toList ++ (S ++
        " && udp.srcport==%3 && ipv6.dst==%4 && udp.dstport==%5 && rtp.ssrc==0x%6)".toList)) a1 la1 =
      "(ipv6.src==".toList ++ (S ++ (" && udp.srcport==".toList ++ (a1 ++
        " && ipv6.dst==%4 && udp.dstport==%5 && rtp.ssrc==0x%6)".toList))) := by
    rw [argWith_append_noPercent _ _ _ _ (by decide),
      argWith_append_plain _ _ _ _ hS (by rfl), r3]
  have s4 : QString.arg ud ("(ipv6.src==".toList ++ (S ++ (" && udp.srcport==".toList ++ (a1 ++
        " && ipv6.dst==%4 && udp.dstport==%5 && rtp.ssrc==0x%6)".toList)))) D =
      "(ipv6.src==".toList ++ (S ++ (" && udp.srcport==".toList ++ (a1 ++
        (" && ipv6.dst==".toList ++ (D ++ " && udp.dstport==%5 && rtp.ssrc==0x%6)".toList))))) := by
    unfold QString.arg
    rw [argWith_append_noPercent _ _ _ _ (by decide),
      argWith_append_plain _ _ _ _ hS (by rfl),
      argWith_append_noPercent _ _ _ _ (by decide), argWith_append_noPercent _ _ _ _ h1, r4]
  have s5 : QString.argWith ud ("(ipv6.src==".toList ++ (S ++ (" && udp.srcport==".toList ++ (a1 ++
        (" && ipv6.dst==".toList ++ (D ++ " && udp.dstport==%5 && rtp.ssrc==0x%6)".toList))))))
        a2 la2 =
      "(ipv6.src==".toList ++ (S ++ (" && udp.srcport==".toList ++ (a1 ++
        (" && ipv6.dst==".toList ++ (D ++ (" && udp.dstport==".toList ++ (a2 ++
        " && rtp.ssrc==0x%6)".toList))))))) := by
    rw [argWith_append_noPercent _ _ _ _ (by decide),
      argWith_append_plain _ _ _ _ hS (by rfl),
      argWith_append_noPercent _ _ _ _ (by decide), argWith_append_noPercent _ _ _ _ h1,
      argWith_append_noPercent _ _ _ _ (by decide),
      argWith_append_plain _ _ _ _ hD (by rfl), r5]
  have s6 : QString.argWith ud ("(ipv6.src==".toList ++ (S ++ (" && udp.srcport==".toList ++ (a1 ++
        (" && ipv6.dst==".toList ++ (D ++ (" && udp.dstport==".toList ++ (a2 ++
        " && rtp.ssrc==0x%6)".toList)))))))) a3 la3 =
      "(ipv6.src==".toList ++ (S ++ (" && udp.srcport==".toList ++ (a1 ++
        (" && ipv6.dst==".toList ++ (D ++ (" && udp.dstport==".toList ++ (a2 ++
        (" && rtp.ssrc==0x".toList ++ (a3 ++ ")".toList))))))))) := by
    rw [argWith_append_noPercent _ _ _ _ (by decide),
      argWith_append_plain _ _ _ _ hS (by rfl),
      argWith_append_noPercent _ _ _ _ (by decide), argWith_append_noPercent _ _ _ _ h1,
      argWith_append_noPercent _ _ _ _ (by decide),
      argWith_append_plain _ _ _ _ hD (by rfl),
      argWith_append_noPercent _ _ _ _ (by decide), argWith_append_noPercent _ _ _ _ h2, r6]
  rw [e2, s3, s4, s5, s6]

/-! ## Facts about the rendering of numbers -/

theorem digitChar_eq (d : Nat) (h : d < 16) : digitChar d = Nat.digitChar d := by
  interval_cases d <;> rfl

theorem digitChar_isHexChar (d : Nat) (h : d < 16) : isHexChar (digitChar d) = true := by
  interval_cases d <;> rfl

theorem hexVal_digitChar (d : Nat) (h : d < 16) : hexVal (digitChar d) = d := by
  interval_cases d <;> rfl

theorem qulltoaLoop_zero (base fuel : Nat) (acc : QString) :
    qulltoaLoop base fuel 0 acc = acc := by
  cases fuel <;> simp [qulltoaLoop]

theorem div_lt_pow (l base fuel : Nat) (hb : 2 ≤ base) (h : l < 2 ^ (fuel + 1)) :
    l / base < 2 ^ fuel := by
  have h1 : l / base ≤ l / 2 := Nat.div_le_div_left hb (by norm_num)
  have h2 : l / 2 < 2 ^ fuel := by
    rw [Nat.div_lt_iff_lt_mul (by norm_num)]
    rw [pow_succ] at h
    exact h
  omega

theorem qulltoaLoop_eq_toDigitsCore (base : Nat) (hb : 2 ≤ base) (hb2 : base ≤ 16) :
    ∀ (f1 f2 l : Nat) (acc : QString), 0 < l → l < 2 ^ f1 → l < f2 →
      qulltoaLoop base f1 l acc = Nat.toDigitsCore base f2 l acc := by
  intro f1
  induction f1 with
  | zero =>
    intro f2 l acc h0 h1 _
    simp at h1
    omega
  | succ f1 ih =>
    intro f2 l acc h0 h1 h2
    cases f2 with
    | zero => omega
    | succ f2 =>
      have hm : l % base < 16 := lt_of_lt_of_le (Nat.mod_lt _ (by omega)) hb2
      have hl : l ≠ 0 := by omega
      simp only [qulltoaLoop, hl, if_false, Nat.toDigitsCore, digitChar_eq _ hm]
      by_cases hz : l / base = 0
      · simp [hz, qulltoaLoop_zero]
      · simp only [hz, if_false]
        apply ih
        · exact Nat.pos_of_ne_zero hz
        · exact div_lt_pow l base f1 hb h1
        · have : l / base < l := Nat.div_lt_self h0 (by omega)
          omega

/-- The C rendering of a number below 2^64 in a base from 2 to 16 is its digit string. -/
theorem unsLongLongToString_eq_toDigits (l base : Nat) (hb : 2 ≤ base) (hb2 : base ≤ 16)
    (hl : l < 2 ^ 64) : unsLongLongToString l base = Nat.toDigits base l := by
  unfold unsLongLongToString
  rw [Nat.mod_eq_of_lt hl]
  by_cases h0 : l = 0
  · subst h0
    simp [Nat.toDigits, Nat.toDigitsCore, Nat.digitChar]
  · simp only [h0, if_false]
    exact qulltoaLoop_eq_toDigitsCore base hb hb2 64 (l + 1) l [] (by omega) hl (by omega)

theorem qulltoaLoop_isHexChar (base : Nat) (hb : 2 ≤ base) (hb2 : base ≤ 16) :
    ∀ (fuel l : Nat) (acc : QString), (∀ c ∈ acc, isHexChar c = true) →
      ∀ c ∈ qulltoaLoop base fuel l acc, isHexChar c = true := by
  intro fuel
  induction fuel with
  | zero =>
    intro l acc h
    simpa [qulltoaLoop] using h
  | succ fuel ih =>
    intro l acc h
    simp only [qulltoaLoop]
    split
    · exact h
    · apply ih
      intro c hc
      rcases List.mem_cons.mp hc with rfl | hc
      · exact digitChar_isHexChar _ (lt_of_lt_of_le (Nat.mod_lt _ (by omega)) hb2)
      · exact h c hc

theorem unsLongLongToString_isHexChar (l base : Nat) (hb : 2 ≤ base) (hb2 : base ≤ 16) :
    ∀ c ∈ unsLongLongToString l base, isHexChar c = true := by
  unfold unsLongLongToString
  split
  · intro c hc
    simp at hc
    subst hc
    rfl
  · exact qulltoaLoop_isHexChar base hb hb2 64 _ [] (by simp)

theorem isHexChar_ne_percent (c : Char) (h : isHexChar c = true) : c ≠ '%' := by
  intro hc
  subst hc
  simp [isHexChar] at h

theorem unsLongLongToString_noPercent (l base : Nat) (hb : 2 ≤ base) (hb2 : base ≤ 16) :
    ∀ c ∈ unsLongLongToString l base, c ≠ '%' :=
  fun c hc => isHexChar_ne_percent c (unsLongLongToString_isHexChar l base hb hb2 c hc)

theorem qulltoaLoop_decode (base : Nat) (hb : 2 ≤ base) (hb2 : base ≤ 16) :
    ∀ (fuel l : Nat) (acc : QString), l < 2 ^ fuel →
      (qulltoaLoop base fuel l acc).foldl (fun x c => x * base + hexVal c) 0 =
        acc.foldl (fun x c => x * base + hexVal c) l := by
  intro fuel
  induction fuel with
  | zero =>
    intro l acc h
    simp at h
    subst h
    rfl
  | succ fuel ih =>
    intro l acc h
    simp only [qulltoaLoop]
    split
    · rename_i h0
      rw [h0]
    · rw [ih _ _ (div_lt_pow l base fuel hb h)]
      simp only [List.foldl_cons]
      rw [hexVal_digitChar _ (lt_of_lt_of_le (Nat.mod_lt _ (by omega)) hb2), Nat.div_add_mod']

/-- Reading the C rendering of a number back gives the number. -/
theorem decodeNumber_unsLongLongToString (l base : Nat) (hb : 2 ≤ base) (hb2 : base ≤ 16)
    (hl : l < 2 ^ 64) : decodeNumber base (unsLongLongToString l base) = l := by
  unfold unsLongLongToString decodeNumber
  rw [Nat.mod_eq_of_lt hl]
  split
  · rename_i h0
    rw [h0]
    have : hexVal '0' = 0 := rfl
    simp [this]
  · rw [qulltoaLoop_decode base hb hb2 64 l [] hl]
    rfl

/-- Two strings of number characters, each followed by a character that is none, are equal as
soon as the whole texts are. -/
theorem hexChars_split (xs ys : QString) (c d : Char) (r s : QString)
    (hx : ∀ x ∈ xs, isHexChar x = true) (hy : ∀ y ∈ ys, isHexChar y = true)
    (hc : isHexChar c = false) (hd : isHexChar d = false)
    (h : xs ++ c :: r = ys ++ d :: s) : xs = ys ∧ r = s := by
  induction xs generalizing ys with
  | nil =>
    cases ys with
    | nil =>
      simp at h
      exact ⟨rfl, h.2⟩
    | cons y ys =>
      simp at h
      have := hy y (by simp)
      rw [← h.1, hc] at this
      cases this
  | cons x xs ih =>
    cases ys with
    | nil =>
      simp at h
      have := hx x (by simp)
      rw [h.1, hd] at this
      cases this
    | cons y ys =>
      simp at h
      obtain ⟨h1, h2⟩ := h
      have := ih ys (fun z hz => hx z (by simp [hz])) (fun z hz => hy z (by simp [hz])) h2
      exact ⟨by rw [h1, this.1], this.2⟩

/-! ## Facts about the clause of one identity -/

theorem address_to_qstring_eq (ext : Externals) (a : _address) (enclose : Bool) :
    address_to_qstring ext (some a) enclose =
      bracketIf (enclose && decide (a.type = address_type.AT_IPv6)) (ext.address_to_str a) := by
  unfold address_to_qstring bracketIf
  by_cases h : a.type = address_type.AT_IPv6 <;> cases enclose <;> simp [h]

theorem address_to_qstring_plain (ext : Externals) (a : _address) (enclose : Bool)
    (h : hasPlaceMarker ext.unicodeDigit (ext.address_to_str a) = false) :
    hasPlaceMarker ext.unicodeDigit (address_to_qstring ext (some a) enclose) = false := by
  rw [address_to_qstring_eq]
  unfold bracketIf
  split
  · exact hasPlaceMarker_bracket _ h
  · exact h

theorem expectedClause_ip (S a1 D a2 a3 : QString) :
    "(ip.src==".toList ++ (S ++ (" && udp.srcport==".toList ++ (a1 ++
      (" && ip.dst==".toList ++ (D ++ (" && udp.dstport==".toList ++ (a2 ++
      (" && rtp.ssrc==0x".toList ++ (a3 ++ ")".toList))))))))) =
    expectedClause "ip".toList S a1 D a2 a3 := rfl

theorem expectedClause_ipv6 (S a1 D a2 a3 : QString) :
    "(ipv6.src==".toList ++ (S ++ (" && udp.srcport==".toList ++ (a1 ++
      (" && ipv6.dst==".toList ++ (D ++ (" && udp.dstport==".toList ++ (a2 ++
      (" && rtp.ssrc==0x".toList ++ (a3 ++ ")".toList))))))))) =
    expectedClause "ipv6".toList S a1 D a2 a3 := rfl

/-- The clause of an identity within range whose address texts have no place marker. -/
theorem rtpstream_id_clause_eq (ext : Externals) (id : rtpstream_id_t) (hr : id.inRange)
    (hs : hasPlaceMarker ext.unicodeDigit (ext.address_to_str id.src_addr) = false)
    (hd : hasPlaceMarker ext.unicodeDigit (ext.address_to_str id.dst_addr) = false) :
    rtpstream_id_clause ext id =
      expectedClause (familyName id)
        (address_to_qstring ext (some id.src_addr) ext.encloseDefault)
        (unsLongLongToString id.src_port 10)
        (address_to_qstring ext (some id.dst_addr) ext.encloseDefault)
        (unsLongLongToString id.dst_port 10)
        (unsLongLongToString id.ssrc 16) := by
  obtain ⟨h1, h2, h3⟩ := hr
  have hS := address_to_qstring_plain ext id.src_addr ext.encloseDefault hs
  have hD := address_to_qstring_plain ext id.dst_addr ext.encloseDefault hd
  unfold rtpstream_id_clause QString.argNumber familyName
  rw [Nat.mod_eq_of_lt h1, Nat.mod_eq_of_lt h2, Nat.mod_eq_of_lt h3]
  by_cases ht : id.src_addr.type = address_type.AT_IPv6
  · simp only [ht, if_true]
    rw [clauseTemplate_args_ipv6 _ _ _ _ _ _ _ _ hS hD
      (unsLongLongToString_noPercent _ 10 (by norm_num) (by norm_num))
      (unsLongLongToString_noPercent _ 10 (by norm_num) (by norm_num))]
    exact expectedClause_ipv6 _ _ _ _ _
  · simp only [ht, if_false]
    rw [clauseTemplate_args_ip _ _ _ _ _ _ _ _ hS hD
      (unsLongLongToString_noPercent _ 10 (by norm_num) (by norm_num))
      (unsLongLongToString_noPercent _ 10 (by norm_num) (by norm_num))]
    exact expectedClause_ip _ _ _ _ _

theorem clauseTemplate_wrapped : ∃ m, clauseTemplate = '(' :: (m ++ [')']) :=
  ⟨"%1.src==%2 && udp.srcport==%3 && %1.dst==%4 && udp.dstport==%5 && rtp.ssrc==0x%6".toList, rfl⟩

/-- Every clause starts with an opening parenthesis and ends with a closing one. -/
theorem rtpstream_id_clause_wrapped (ext : Externals) (id : rtpstream_id_t) :
    ∃ m, rtpstream_id_clause ext id = '(' :: (m ++ [')']) := by
  unfold rtpstream_id_clause QString.argNumber QString.arg
  obtain ⟨m0, h0⟩ := clauseTemplate_wrapped
  rw [h0]
  obtain ⟨m1, h1⟩ := argWith_wrapped m0
    (if id.src_addr.type = address_type.AT_IPv6 then "ipv6".toList else "ip".toList)
    (if id.src_addr.type = address_type.AT_IPv6 then "ipv6".toList else "ip".toList)
  simp only at h1 ⊢
  rw [h1]
  obtain ⟨m2, h2⟩ := argWith_wrapped m1
    (address_to_qstring ext (some id.src_addr) ext.encloseDefault)
    (address_to_qstring ext (some id.src_addr) ext.encloseDefault)
  rw [h2]
  obtain ⟨m3, h3⟩ := argWith_wrapped m2 (unsLongLongToString (id.src_port % 2 ^ 16) 10)
    (ext.localeText (id.src_port % 2 ^ 16) 10)
  rw [h3]
  obtain ⟨m4, h4⟩ := argWith_wrapped m3
    (address_to_qstring ext (some id.dst_addr) ext.encloseDefault)
    (address_to_qstring ext (some id.dst_addr) ext.encloseDefault)
  rw [h4]
  obtain ⟨m5, h5⟩ := argWith_wrapped m4 (unsLongLongToString (id.dst_port % 2 ^ 16) 10)
    (ext.localeText (id.dst_port % 2 ^ 16) 10)
  rw [h5]
  exact argWith_wrapped m5 _ _

/-! ## Facts about the list of clauses and its joining -/

theorem foldl_append_singleton {α β : Type} (f : α → β) (l : List α) (acc : List β) :
    l.foldl (fun acc x => acc ++ [f x]) acc = acc ++ l.map f := by
  induction l generalizing acc with
  | nil => simp
  | cons x xs ih => simp [ih]

theorem intercalate_cons_cons (sep x y : QString) (l : List QString) :
    List.intercalate sep (x :: y :: l) = x ++ (sep ++ List.intercalate sep (y :: l)) := by
  simp [List.intercalate, List.intersperse]

theorem join_loop (sep : QString) (l : List QString) (res : QString) (i : Nat) (hi : i ≠ 0) :
    (l.foldl
      (fun (st : QString × Nat) (s : QString) =>
        ((if st.2 ≠ 0 then st.1 ++ sep else st.1) ++ s, st.2 + 1))
      (res, i)).1 = res ++ (l.map (fun s => sep ++ s)).flatten := by
  induction l generalizing res i with
  | nil => simp
  | cons x xs ih =>
    simp only [List.foldl_cons, List.map_cons, List.flatten_cons]
    rw [ih _ _ (by omega)]
    simp [hi]

theorem intercalate_cons (sep x : QString) (l : List QString) :
    List.intercalate sep (x :: l) = x ++ (l.map (fun s => sep ++ s)).flatten := by
  induction l generalizing x with
  | nil => simp [List.intercalate]
  | cons y ys ih =>
    rw [intercalate_cons_cons, ih y]
    simp

/-- QStringList::join puts the separator between consecutive elements. -/
theorem QStringList_join_eq (l : List QString) (sep : QString) :
    QStringList_join l sep = List.intercalate sep l := by
  unfold QStringList_join
  cases l with
  | nil => rfl
  | cons x xs =>
    simp only [List.foldl_cons]
    rw [intercalate_cons]
    have := join_loop sep xs x 1 (by norm_num)
    simpa using this

theorem make_filter_eq (ext : Externals) (ids : List rtpstream_id_t) :
    make_filter_based_on_rtpstream_id ext ids =
      List.intercalate " || ".toList (ids.map (rtpstream_id_clause ext)) := by
  unfold make_filter_based_on_rtpstream_id
  simp only [foldl_append_singleton, List.nil_append, QStringList_join_eq]
  cases ids with
  | nil => rfl
  | cons x xs => simp

theorem intercalate_wrapped (sep : QString) (l : List QString)
    (h : ∀ s ∈ l, ∃ m, s = '(' :: (m ++ [')'])) (x : QString)
    (hx : ∃ m, x = '(' :: (m ++ [')'])) :
    ∃ m, List.intercalate sep (x :: l) = '(' :: (m ++ [')']) := by
  induction l generalizing x with
  | nil =>
    obtain ⟨m, hm⟩ := hx
    exact ⟨m, by simp [List.intercalate, hm]⟩
  | cons y ys ih =>
    obtain ⟨m, hm⟩ := hx
    obtain ⟨m2, hm2⟩ := ih (fun s hs => h s (by simp [hs])) y (h y (by simp))
    rw [intercalate_cons_cons, hm2, hm]
    exact ⟨m ++ [')'] ++ sep ++ '(' :: m2, by simp⟩


theorem hexChars_split_sep (xs ys sep r s : QString)
    (hx : ∀ x ∈ xs, isHexChar x = true) (hy : ∀ y ∈ ys, isHexChar y = true)
    (hsep : ∃ c t, sep = c :: t ∧ isHexChar c = false)
    (h : xs ++ (sep ++ r) = ys ++ (sep ++ s)) : xs = ys ∧ r = s := by
  obtain ⟨c, t, rfl, hc⟩ := hsep
  have h2 := hexChars_split xs ys c c (t ++ r) (t ++ s) hx hy hc hc (by simpa using h)
  exact ⟨h2.1, List.append_cancel_left h2.2⟩

theorem unsLongLongToString_injective (a b base : Nat) (hb : 2 ≤ base) (hb2 : base ≤ 16)
    (ha : a < 2 ^ 64) (hb3 : b < 2 ^ 64)
    (h : unsLongLongToString a base = unsLongLongToString b base) : a = b := by
  have := congrArg (decodeNumber base) h
  rwa [decodeNumber_unsLongLongToString a base hb hb2 ha,
    decodeNumber_unsLongLongToString b base hb hb2 hb3] at this

theorem expectedClause_numbers_injective (F S D a1 a2 a3 b1 b2 b3 : QString)
    (ha1 : ∀ x ∈ a1, isHexChar x = true) (ha2 : ∀ x ∈ a2, isHexChar x = true)
    (hb1 : ∀ x ∈ b1, isHexChar x = true) (hb2 : ∀ x ∈ b2, isHexChar x = true)
    (h : expectedClause F S a1 D a2 a3 = expectedClause F S b1 D b2 b3) :
    a1 = b1 ∧ a2 = b2 ∧ a3 = b3 := by
  unfold expectedClause at h
  have h1 := List.append_cancel_left (List.append_cancel_left (List.append_cancel_left
    (List.append_cancel_left (List.append_cancel_left h))))
  obtain ⟨e1, h2⟩ := hexChars_split_sep _ _ _ _ _ ha1 hb1 ⟨' ', "&& ".toList, rfl, rfl⟩ h1
  have h3 := List.append_cancel_left (List.append_cancel_left (List.append_cancel_left
    (List.append_cancel_left h2)))
  obtain ⟨e2, h4⟩ := hexChars_split_sep _ _ _ _ _ ha2 hb2
    ⟨' ', "&& rtp.ssrc==0x".toList, rfl, rfl⟩ h3
  exact ⟨e1, e2, List.append_cancel_right h4⟩

theorem mark_pass_absent (session : rtpstream_tapinfo_t) (cap_file : List packet)
    (hf : session.filter_stream_fwd = none) (hv : session.filter_stream_rev = none)
    (st : List frame_data × Nat) :
    cap_file.foldl
      (fun (st : List frame_data × Nat) (p : packet) =>
        match p.rtp with
        | some a =>
          if session.tap_mark_packet &&
              (matches_stream a.id session.filter_stream_fwd ||
                matches_stream a.id session.filter_stream_rev)
          then (st.1 ++ [p.fd], st.2 + 1) else (st.1, st.2 + 1)
        | none => (st.1, st.2 + 1))
      st = (st.1, st.2 + cap_file.length) := by
  induction cap_file generalizing st with
  | nil => rfl
  | cons p ps ih =>
    simp only [List.foldl_cons, List.length_cons]
    rw [ih]
    cases hp : p.rtp with
    | none => simp; omega
    | some a => simp [hf, hv, matches_stream]; omega

/-! ## The claims -/

/-- C1: the filter is the clauses of the identities, one per identity and in the order given,
joined by the separator made of a space, two bars and a space; the i-th clause is the clause of
the i-th identity. -/
theorem make_filter_is_clauses_joined (ext : Externals) (ids : List rtpstream_id_t) :
    make_filter_based_on_rtpstream_id ext ids =
        List.intercalate " || ".toList (ids.map (rtpstream_id_clause ext)) ∧
      (ids.map (rtpstream_id_clause ext)).length = ids.length ∧
      ∀ i : Nat, (ids.map (rtpstream_id_clause ext))[i]? =
        (ids[i]?).map (rtpstream_id_clause ext) :=
  ⟨make_filter_eq ext ids, by simp, fun i => by simp⟩

/-- C2: the code at the identity whose source address is the AT_STRINGZ text made of the place
marker of number 1. The call commented with %3 fills the marker brought in by the address text:
the source port lands at the place of the source address, the destination address at the place
of the source port, the destination port at the place of the destination address, the
synchronization source at the place of the destination port, and the marker of number 6 is left
in the clause. The clause is not the one the claim gives, with each value at its own place. -/
theorem clause_form_fails_with_place_marker :
    rtpstream_id_clause sampleExternals markerId =
        "(ip.src==80 && udp.srcport==10.0.0.2 && ip.dst==6000 && udp.dstport==ff && rtp.ssrc==0x%6)".toList ∧
      rtpstream_id_clause sampleExternals markerId ≠
        expectedClause (familyName markerId)
          (sampleExternals.address_to_str markerId.src_addr) (Nat.toDigits 10 markerId.src_port)
          (sampleExternals.address_to_str markerId.dst_addr) (Nat.toDigits 10 markerId.dst_port)
          (Nat.toDigits 16 markerId.ssrc) := by
  decide

/-- Where the chained calls of QString::arg meet no place marker in the address texts, the
clause of an identity with 16-bit ports and a 32-bit synchronization source has the form with the
family name for both endpoints, the address literals that address_to_qstring yields under the
default of enclose, the decimal ports and the hexadecimal synchronization source, each at its own
place. -/
theorem clause_form_without_place_marker (ext : Externals) (id : rtpstream_id_t)
    (hr : id.inRange)
    (hs : hasPlaceMarker ext.unicodeDigit (ext.address_to_str id.src_addr) = false)
    (hd : hasPlaceMarker ext.unicodeDigit (ext.address_to_str id.dst_addr) = false) :
    rtpstream_id_clause ext id =
      expectedClause (familyName id)
        (address_to_qstring ext (some id.src_addr) ext.encloseDefault)
        (Nat.toDigits 10 id.src_port)
        (address_to_qstring ext (some id.dst_addr) ext.encloseDefault)
        (Nat.toDigits 10 id.dst_port)
        (Nat.toDigits 16 id.ssrc) := by
  have h16 : (2 : Nat) ^ 16 < 2 ^ 64 := by norm_num
  have h32 : (2 : Nat) ^ 32 < 2 ^ 64 := by norm_num
  rw [rtpstream_id_clause_eq ext id hr hs hd,
    unsLongLongToString_eq_toDigits _ 10 (by norm_num) (by norm_num) (lt_trans hr.1 h16),
    unsLongLongToString_eq_toDigits _ 10 (by norm_num) (by norm_num) (lt_trans hr.2.1 h16),
    unsLongLongToString_eq_toDigits _ 16 (by norm_num) (by norm_num) (lt_trans hr.2.2 h32)]

/-- The clause form without place marker, at the sample IPv4 identity. -/
theorem clause_form_without_place_marker_witness :
    sampleId4.inRange ∧
      hasPlaceMarker sampleExternals.unicodeDigit (sampleExternals.address_to_str sampleId4.src_addr) = false ∧
      hasPlaceMarker sampleExternals.unicodeDigit (sampleExternals.address_to_str sampleId4.dst_addr) = false ∧
      rtpstream_id_clause sampleExternals sampleId4 =
        expectedClause (familyName sampleId4)
          (address_to_qstring sampleExternals (some sampleId4.src_addr)
            sampleExternals.encloseDefault)
          (Nat.toDigits 10 sampleId4.src_port)
          (address_to_qstring sampleExternals (some sampleId4.dst_addr)
            sampleExternals.encloseDefault)
          (Nat.toDigits 10 sampleId4.dst_port)
          (Nat.toDigits 16 sampleId4.ssrc) :=
  ⟨by decide, by decide, by decide,
    clause_form_without_place_marker sampleExternals sampleId4 (by decide) (by decide)
      (by decide)⟩


/-- C3, as stated, fails: with enclose defaulting to false, the clause of the sample IPv6 identity
carries both address literals without brackets. -/
theorem ipv6_literal_not_bracketed :
    sampleId6.src_addr.type = address_type.AT_IPv6 ∧
      sampleId6.dst_addr.type = address_type.AT_IPv6 ∧
      rtpstream_id_clause sampleExternals sampleId6 =
        "(ipv6.src==2001:db8::1 && udp.srcport==5004 && ipv6.dst==2001:db8::2 && udp.dstport==6000 && rtp.ssrc==0xff)".toList ∧
      rtpstream_id_clause sampleExternals sampleId6 ≠
        expectedClause (familyName sampleId6)
          (bracketIf (decide (sampleId6.src_addr.type = address_type.AT_IPv6))
            (sampleExternals.address_to_str sampleId6.src_addr))
          (Nat.toDigits 10 sampleId6.src_port)
          (bracketIf (decide (sampleId6.dst_addr.type = address_type.AT_IPv6))
            (sampleExternals.address_to_str sampleId6.dst_addr))
          (Nat.toDigits 10 sampleId6.dst_port)
          (Nat.toDigits 16 sampleId6.ssrc) := by
  decide

/-- C3, amended: an address literal of a clause is enclosed in brackets exactly when the default
of enclose is true and the address is of the IPv6 family; with the default false no literal is
enclosed, whatever the family. This holds for an identity with 16-bit ports and a 32-bit
synchronization source whose two address texts have no place marker. -/
theorem clause_literal_bracketed_iff (ext : Externals) (id : rtpstream_id_t)
    (hr : id.inRange)
    (hs : hasPlaceMarker ext.unicodeDigit (ext.address_to_str id.src_addr) = false)
    (hd : hasPlaceMarker ext.unicodeDigit (ext.address_to_str id.dst_addr) = false) :
    rtpstream_id_clause ext id =
      expectedClause (familyName id)
        (bracketIf (ext.encloseDefault && decide (id.src_addr.type = address_type.AT_IPv6))
          (ext.address_to_str id.src_addr))
        (unsLongLongToString id.src_port 10)
        (bracketIf (ext.encloseDefault && decide (id.dst_addr.type = address_type.AT_IPv6))
          (ext.address_to_str id.dst_addr))
        (unsLongLongToString id.dst_port 10)
        (unsLongLongToString id.ssrc 16) := by
  rw [rtpstream_id_clause_eq ext id hr hs hd, address_to_qstring_eq, address_to_qstring_eq]

/-- Witness of C3, amended, at the sample IPv6 identity with enclose defaulting to true. -/
theorem clause_literal_bracketed_iff_witness :
    sampleId6.inRange ∧
      hasPlaceMarker sampleExternalsEnclosing.unicodeDigit (sampleExternalsEnclosing.address_to_str sampleId6.src_addr) = false ∧
      hasPlaceMarker sampleExternalsEnclosing.unicodeDigit (sampleExternalsEnclosing.address_to_str sampleId6.dst_addr) = false ∧
      rtpstream_id_clause sampleExternalsEnclosing sampleId6 =
        expectedClause (familyName sampleId6)
          (bracketIf (sampleExternalsEnclosing.encloseDefault &&
              decide (sampleId6.src_addr.type = address_type.AT_IPv6))
            (sampleExternalsEnclosing.address_to_str sampleId6.src_addr))
          (unsLongLongToString sampleId6.src_port 10)
          (bracketIf (sampleExternalsEnclosing.encloseDefault &&
              decide (sampleId6.dst_addr.type = address_type.AT_IPv6))
            (sampleExternalsEnclosing.address_to_str sampleId6.dst_addr))
          (unsLongLongToString sampleId6.dst_port 10)
          (unsLongLongToString sampleId6.ssrc 16) :=
  ⟨by decide, by decide, by decide,
    clause_literal_bracketed_iff sampleExternalsEnclosing sampleId6 (by decide) (by decide)
      (by decide)⟩

/-- C4: for a stream of two packets whose gap is G expected silence units, the export writes the
payload of the first, then min(G, MAX_SILENCE_FRAMES) silence frames, then the payload of the
second; the output holds that many silence frames and never more than MAX_SILENCE_FRAMES. -/
theorem rtpstream_save_silence_bound (tapinfo : rtpstream_tapinfo_t) (stream : rtpstream_info_t)
    (fd1 fd2 : frame_data) (p1 p2 : rtp_attributes) (G : Nat)
    (h1 : p1.id = stream.id) (h2 : p2.id = stream.id) (hG : silence_gap p1 p2 = G) :
    rtpstream_save tapinfo [⟨fd1, some p1⟩, ⟨fd2, some p2⟩] stream true =
        (true, out_frame.payload p1.payload ::
          (List.replicate (min G MAX_SILENCE_FRAMES) out_frame.silence ++
            [out_frame.payload p2.payload])) ∧
      (rtpstream_save tapinfo [⟨fd1, some p1⟩, ⟨fd2, some p2⟩] stream true).2.count
          out_frame.silence = min G MAX_SILENCE_FRAMES ∧
      min G MAX_SILENCE_FRAMES ≤ MAX_SILENCE_FRAMES := by
  have hm : silence_frames G = min G MAX_SILENCE_FRAMES := by
    unfold silence_frames
    split
    · rw [Nat.min_eq_right (by omega)]
    · rw [Nat.min_eq_left (by omega)]
  have hsave : rtpstream_save tapinfo [⟨fd1, some p1⟩, ⟨fd2, some p2⟩] stream true =
      (true, out_frame.payload p1.payload ::
        (List.replicate (min G MAX_SILENCE_FRAMES) out_frame.silence ++
          [out_frame.payload p2.payload])) := by
    simp [rtpstream_save, stream_packets, h1, h2, export_frames, hG, hm]
  refine ⟨hsave, ?_, Nat.min_le_right _ _⟩
  rw [hsave]
  simp [List.count_cons, List.count_append, List.count_replicate]

/-- Witness of C4 at the two sample packets, three silence units apart. -/
theorem rtpstream_save_silence_bound_witness :
    samplePacket1.id = (sampleStream sampleId4).id ∧
      samplePacket2.id = (sampleStream sampleId4).id ∧
      silence_gap samplePacket1 samplePacket2 = 3 ∧
      rtpstream_save sampleTap [⟨⟨1⟩, some samplePacket1⟩, ⟨⟨2⟩, some samplePacket2⟩]
          (sampleStream sampleId4) true =
        (true, out_frame.payload samplePacket1.payload ::
          (List.replicate (min 3 MAX_SILENCE_FRAMES) out_frame.silence ++
            [out_frame.payload samplePacket2.payload])) ∧
      (rtpstream_save sampleTap [⟨⟨1⟩, some samplePacket1⟩, ⟨⟨2⟩, some samplePacket2⟩]
          (sampleStream sampleId4) true).2.count out_frame.silence = min 3 MAX_SILENCE_FRAMES ∧
      min 3 MAX_SILENCE_FRAMES ≤ MAX_SILENCE_FRAMES :=
  ⟨rfl, rfl, by decide,
    rtpstream_save_silence_bound sampleTap (sampleStream sampleId4) ⟨1⟩ ⟨2⟩ samplePacket1
      samplePacket2 3 rfl rfl (by decide)⟩

/-- C5: the ceiling MAX_SILENCE_FRAMES is 14,400,000 and is below 2^31. -/
theorem MAX_SILENCE_FRAMES_value :
    MAX_SILENCE_FRAMES = 14400000 ∧ MAX_SILENCE_FRAMES < 2 ^ 31 := by
  unfold MAX_SILENCE_FRAMES
  norm_num

/-- C6: a mark pass with neither a forward nor a reverse record goes through every packet of the
capture, invokes the mark callback for none, and leaves the stream list, the number of streams
and the number of packets of the tap as they were. -/
theorem rtpstream_mark_absent_streams (tapinfo : rtpstream_tapinfo_t) (cap_file : List packet) :
    (rtpstream_mark tapinfo cap_file none none).marked = [] ∧
      (rtpstream_mark tapinfo cap_file none none).dissected = cap_file.length ∧
      (rtpstream_mark tapinfo cap_file none none).tapinfo.strinfo_list = tapinfo.strinfo_list ∧
      (rtpstream_mark tapinfo cap_file none none).tapinfo.nstreams = tapinfo.nstreams ∧
      (rtpstream_mark tapinfo cap_file none none).tapinfo.npackets = tapinfo.npackets := by
  have hp := mark_pass_absent
    { tapinfo with
      mode := tap_mode_t.TAP_MARK
      filter_stream_fwd := none
      filter_stream_rev := none }
    cap_file rfl rfl ([], 0)
  refine ⟨congrArg Prod.fst hp, ?_, rfl, rfl, rfl⟩
  have h2 := congrArg Prod.snd hp
  simp only [Nat.zero_add] at h2
  exact h2

/-- C7: address_to_qstring gives the empty string for a null address; otherwise it gives the text
of the address, between brackets when enclose is true and the address is IPv6, and as it is in
every other case. -/
theorem address_to_qstring_spec (ext : Externals) (enclose : Bool) :
    address_to_qstring ext none enclose = [] ∧
      ∀ a : _address, address_to_qstring ext (some a) enclose =
        if enclose = true ∧ a.type = address_type.AT_IPv6
        then "[".toList ++ ext.address_to_str a ++ "]".toList
        else ext.address_to_str a := by
  refine ⟨rfl, fun a => ?_⟩
  unfold address_to_qstring
  by_cases h : enclose = true ∧ a.type = address_type.AT_IPv6
  · simp [h]
  · simp only [h, if_false]
    simp

/-- C8: make_filter_based_on_rtpstream_info is make_filter_based_on_rtpstream_id at the id fields
of the records, in the same order; no other field of a record is read. -/
theorem make_filter_info_eq_id (ext : Externals) (streams : List rtpstream_info_t) :
    make_filter_based_on_rtpstream_info ext streams =
      make_filter_based_on_rtpstream_id ext (streams.map (fun stream_info => stream_info.id)) := by
  unfold make_filter_based_on_rtpstream_info
  simp only [foldl_append_singleton, List.nil_append]

/-- C9: the filter is empty exactly for the empty list of identities, and for a list with at
least one identity it starts with an opening parenthesis and ends with a closing one. -/
theorem make_filter_empty_iff (ext : Externals) :
    (∀ ids : List rtpstream_id_t, make_filter_based_on_rtpstream_id ext ids = [] ↔ ids = []) ∧
      ∀ (id : rtpstream_id_t) (rest : List rtpstream_id_t), ∃ body : QString,
        make_filter_based_on_rtpstream_id ext (id :: rest) = '(' :: (body ++ [')']) := by
  have hw : ∀ (id : rtpstream_id_t) (rest : List rtpstream_id_t), ∃ body : QString,
      make_filter_based_on_rtpstream_id ext (id :: rest) = '(' :: (body ++ [')']) := by
    intro id rest
    rw [make_filter_eq, List.map_cons]
    apply intercalate_wrapped
    · intro s hs
      obtain ⟨x, _, rfl⟩ := List.mem_map.mp hs
      exact rtpstream_id_clause_wrapped ext x
    · exact rtpstream_id_clause_wrapped ext id
  refine ⟨fun ids => ?_, hw⟩
  constructor
  · intro h
    cases ids with
    | nil => rfl
    | cons id rest =>
      obtain ⟨body, hb⟩ := hw id rest
      rw [hb] at h
      cases h
  · intro h
    subst h
    rfl

/-- C10: the code at two identities with the same AT_STRINGZ addresses, whose texts are made of
place markers, and with different ports. The chained calls of QString::arg put the two decimal
ports next to each other at the place of the source address, so that ports 1 and 23 and ports 12
and 3 give the same clause: the rendering loses the ports there, against the claim. -/
theorem clause_not_injective_with_place_markers :
    markerIdA.inRange ∧ markerIdB.inRange ∧
      markerIdA.src_addr = markerIdB.src_addr ∧ markerIdA.dst_addr = markerIdB.dst_addr ∧
      rtpstream_id_clause sampleExternals markerIdA =
        rtpstream_id_clause sampleExternals markerIdB ∧
      rtpstream_id_clause sampleExternals markerIdA =
        "(ip.src==123 && udp.srcport==ff && ip.dst==%4 && udp.dstport==%5 && rtp.ssrc==0x%6)".toList ∧
      markerIdA.src_port ≠ markerIdB.src_port ∧ markerIdA.dst_port ≠ markerIdB.dst_port := by
  decide

/-- Where the chained calls of QString::arg meet no place marker in the address texts, two
identities with 16-bit ports and 32-bit synchronization sources, with the same source address and
the same destination address and with equal clauses, have the same source port, destination port
and synchronization source. -/
theorem clause_injective_ports_ssrc (ext : Externals) (id1 id2 : rtpstream_id_t)
    (hr1 : id1.inRange) (hr2 : id2.inRange)
    (hsrc : id1.src_addr = id2.src_addr) (hdst : id1.dst_addr = id2.dst_addr)
    (hs : hasPlaceMarker ext.unicodeDigit (ext.address_to_str id1.src_addr) = false)
    (hd : hasPlaceMarker ext.unicodeDigit (ext.address_to_str id1.dst_addr) = false)
    (h : rtpstream_id_clause ext id1 = rtpstream_id_clause ext id2) :
    id1.src_port = id2.src_port ∧ id1.dst_port = id2.dst_port ∧ id1.ssrc = id2.ssrc := by
  have h16 : (2 : Nat) ^ 16 < 2 ^ 64 := by norm_num
  have h32 : (2 : Nat) ^ 32 < 2 ^ 64 := by norm_num
  have hF : familyName id2 = familyName id1 := by
    unfold familyName
    rw [hsrc]
  rw [rtpstream_id_clause_eq ext id1 hr1 hs hd,
    rtpstream_id_clause_eq ext id2 hr2 (hsrc ▸ hs) (hdst ▸ hd), hF, ← hsrc, ← hdst] at h
  obtain ⟨e1, e2, e3⟩ := expectedClause_numbers_injective _ _ _ _ _ _ _ _ _
    (unsLongLongToString_isHexChar _ 10 (by norm_num) (by norm_num))
    (unsLongLongToString_isHexChar _ 10 (by norm_num) (by norm_num))
    (unsLongLongToString_isHexChar _ 10 (by norm_num) (by norm_num))
    (unsLongLongToString_isHexChar _ 10 (by norm_num) (by norm_num)) h
  exact ⟨unsLongLongToString_injective _ _ 10 (by norm_num) (by norm_num)
      (lt_trans hr1.1 h16) (lt_trans hr2.1 h16) e1,
    unsLongLongToString_injective _ _ 10 (by norm_num) (by norm_num)
      (lt_trans hr1.2.1 h16) (lt_trans hr2.2.1 h16) e2,
    unsLongLongToString_injective _ _ 16 (by norm_num) (by norm_num)
      (lt_trans hr1.2.2 h32) (lt_trans hr2.2.2 h32) e3⟩

/-- The injectivity without place marker, at the sample IPv4 identity taken twice. -/
theorem clause_injective_ports_ssrc_witness :
    sampleId4.inRange ∧
      hasPlaceMarker sampleExternals.unicodeDigit (sampleExternals.address_to_str sampleId4.src_addr) = false ∧
      hasPlaceMarker sampleExternals.unicodeDigit (sampleExternals.address_to_str sampleId4.dst_addr) = false ∧
      (sampleId4.src_port = sampleId4.src_port ∧ sampleId4.dst_port = sampleId4.dst_port ∧
        sampleId4.ssrc = sampleId4.ssrc) :=
  ⟨by decide, by decide, by decide,
    clause_injective_ports_ssrc sampleExternals sampleId4 sampleId4 (by decide) (by decide)
      rfl rfl (by decide) (by decide) rfl⟩

end RtpStream
